import Mathlib

/-
Verification of the IterativeRefinementLoop specification against
the repository sources.

Embedded directly from the sources:
  * `src/software_architect/agent.py`: the completion sentinel constant
    (line 22), the `exit_loop` tool (lines 25-30), the loop's iteration
    cap (line 204), and the sub-agent ordering of the loop and pipeline.
  * `src/GPT-JobHunter/backend/app/main.py`: the mock authentication
    dependency `get_current_user` (lines 134-142) together with the
    `User` schema from `backend/app/models/schemas.py`.

The loop controller itself (`run(topic, maxIterations)`) is not part of
the repository: in the source it is the external ADK `LoopAgent`
primitive, configured by `agent.py`.  Its semantics are therefore
modelled from the specification (sections 4.1, 6, 7, 8 of the spec) as
an executable function over abstract capabilities.
-/

namespace SoftwareArchitect

/-- Embedded from src/software_architect/agent.py line 22: the exact
phrase the critic uses to signal completion. -/
def COMPLETION_PHRASE : String := "No major issues found."

/-- Embedded from src/software_architect/agent.py line 204: the
`max_iterations` argument given to the `LoopAgent`. -/
def max_iterations : Nat := 5

/-- Embedded from src/software_architect/agent.py: the `EventActions`
record carried by a tool context, of which `exit_loop` only touches the
`escalate` flag. -/
structure EventActions where
  escalate : Bool
deriving Repr, DecidableEq

/-- Embedded from src/software_architect/agent.py: the part of the ADK
`ToolContext` visible to `exit_loop`: the calling agent's name (used
only for logging) and the mutable actions record. -/
structure ToolContext where
  agent_name : String
  actions : EventActions
deriving Repr, DecidableEq

/-- Embedded from src/software_architect/agent.py lines 25-30: the
`exit_loop` tool sets `tool_context.actions.escalate = True` and
returns an empty dict.  The Python function mutates its argument; the
embedding returns the updated context together with the returned dict
(modelled as an association list). -/
def exit_loop (tool_context : ToolContext) : ToolContext × List (String × String) :=
  ({ tool_context with actions := { tool_context.actions with escalate := true } }, [])

/-- Embedded from src/software_architect/agent.py lines 196-205: the
names of the loop's sub-agents, in order (critique first, then
refine/exit). -/
def refinement_loop_sub_agents : List String :=
  ["CriticAgent", "RefinerAgent"]

/-- Embedded from src/software_architect/agent.py lines 207-217: the
names of the sequential pipeline's sub-agents, in order. -/
def root_agent_sub_agents : List String :=
  ["InputMapper", "InitialWriterAgent", "RefinementLoop"]

/-- Modelled from the spec: the outcome of one invocation of the
external refine capability.  The source has no loop controller of its
own (the ADK `LoopAgent` runs the refiner agent); the spec's refine
step either yields a replacement artifact, fails, or - the contract
violation case - attempts to signal termination itself (the source's
refiner calling the `exit_loop` tool). -/
inductive RefineOutcome where
  | ok (artifact : String)
  | signalExit
  | err (cause : String)
deriving Repr, DecidableEq

/-- Modelled from the spec: the three abstract capabilities of spec
section 6.  The repository wires prompt-bound LLM agents into the ADK
framework; a single deterministic run of those external services is
modelled as functions, with critique and refine additionally indexed by
the 1-based iteration number on which they are called. -/
structure Capabilities where
  generate : String → Except String String
  critique : Nat → String → String → Except String String
  refine : Nat → String → String → RefineOutcome

/-- Modelled from the spec: which step a failure occurred in. -/
inductive Step where
  | produce
  | critique
  | refine
deriving Repr, DecidableEq

/-- Modelled from the spec (section 7): the error taxonomy.  A step
failure carries the failed step and the underlying cause; a contract
violation is a refine step attempting to signal termination without
the sentinel. -/
inductive RunError where
  | stepFailure (step : Step) (cause : String)
  | contractViolation
deriving Repr, DecidableEq

/-- Modelled from the spec (sections 4.1 and 7): `GenerationError` is
the fatal error of the producer step - the step-failure error tagged
with the produce step. -/
def GenerationError (cause : String) : RunError :=
  RunError.stepFailure Step.produce cause

/-- Modelled from the spec: why the loop terminated - sentinel match or
iteration bound. -/
inductive TerminationReason where
  | sentinel
  | bound
deriving Repr, DecidableEq

/-- Modelled from the spec (section 4.1): the result of a successful
run - the final artifact plus the metadata the spec requires (number of
iterations actually run, and the termination reason). -/
structure RunResult where
  artifact : String
  iterations : Nat
  reason : TerminationReason
deriving Repr, DecidableEq

/-- Modelled from the spec: the observable trace of a run - one event
per successfully completed capability invocation. -/
inductive TraceEvent where
  | produced (artifact : String)
  | critiqued (feedback : String)
  | refined (artifact : String)
deriving Repr, DecidableEq

/-- Modelled from the spec (section 4.1, step 2): the critique/refine
loop.  `remaining` is the number of iterations still allowed, `done`
the number of completed (critique, refine) pairs so far.  Each
iteration critiques the current artifact; on an exact sentinel match
the loop stops with reason `sentinel` and the artifact unchanged;
otherwise the refine capability is invoked and its output replaces the
artifact.  A failing critique or refine aborts with a `StepFailureError`
(an empty refine response counts as malformed); a refine that attempts
to signal termination aborts with `ContractViolationError`.  When
`remaining` reaches 0 - the counter reached `maxIterations` - the loop
stops with reason `bound`. -/
def loopRun (caps : Capabilities) (topic : String) :
    String → Nat → Nat → List TraceEvent × Except RunError RunResult
  | artifact, 0, done =>
      ([], Except.ok { artifact := artifact, iterations := done,
                       reason := TerminationReason.bound })
  | artifact, n + 1, done =>
      match caps.critique (done + 1) artifact topic with
      | Except.error c =>
          ([], Except.error (RunError.stepFailure Step.critique c))
      | Except.ok feedback =>
          if feedback = COMPLETION_PHRASE then
            ([TraceEvent.critiqued feedback],
             Except.ok { artifact := artifact, iterations := done + 1,
                         reason := TerminationReason.sentinel })
          else
            match caps.refine (done + 1) artifact feedback with
            | RefineOutcome.err c =>
                ([TraceEvent.critiqued feedback],
                 Except.error (RunError.stepFailure Step.refine c))
            | RefineOutcome.signalExit =>
                ([TraceEvent.critiqued feedback],
                 Except.error RunError.contractViolation)
            | RefineOutcome.ok a =>
                if a = "" then
                  ([TraceEvent.critiqued feedback],
                   Except.error (RunError.stepFailure Step.refine "empty artifact"))
                else
                  let r := loopRun caps topic a n (done + 1)
                  (TraceEvent.critiqued feedback :: TraceEvent.refined a :: r.1, r.2)

/-- Modelled from the spec (section 4.1): `run(topic, maxIterations)`.
The producer step obtains the initial artifact (failing with
`GenerationError` on error or empty artifact), then the bounded
critique/refine loop runs.  Returns the observable trace together with
the result. -/
def run (caps : Capabilities) (topic : String) (maxIterations : Nat) :
    List TraceEvent × Except RunError RunResult :=
  match caps.generate topic with
  | Except.error c => ([], Except.error (GenerationError c))
  | Except.ok a0 =>
      if a0 = "" then ([], Except.error (GenerationError "empty artifact"))
      else
        let r := loopRun caps topic a0 maxIterations 0
        (TraceEvent.produced a0 :: r.1, r.2)

/-- Modelled from the spec: the artifact obtained from `a` after `j`
completed (critique, refine) pairs, the first of which is iteration
`i`.  The fallback branches (capability failure) are never reached in
the contexts where this function is used. -/
def refineChain (caps : Capabilities) (topic : String) : String → Nat → Nat → String
  | a, _, 0 => a
  | a, i, j + 1 =>
      match caps.critique i a topic with
      | Except.error _ => a
      | Except.ok f =>
          match caps.refine i a f with
          | RefineOutcome.ok a2 => refineChain caps topic a2 (i + 1) j
          | _ => a

/-- Number of critique events in a trace. -/
def countCritiques : List TraceEvent → Nat
  | [] => 0
  | TraceEvent.critiqued _ :: t => countCritiques t + 1
  | _ :: t => countCritiques t

/-- Number of refine events in a trace. -/
def countRefines : List TraceEvent → Nat
  | [] => 0
  | TraceEvent.refined _ :: t => countRefines t + 1
  | _ :: t => countRefines t

/-- Checks that a trace contains no produced event. -/
def noProduced : List TraceEvent → Bool
  | [] => true
  | TraceEvent.produced _ :: _ => false
  | _ :: t => noProduced t

/-- Checks the loop-trace shape: critique and refine events alternate
starting with a critique, every refine event immediately follows a
critique event whose feedback is not the sentinel, and the trace may
end with a critique event with no following refine. -/
def loopAlternation : List TraceEvent → Bool
  | [] => true
  | [TraceEvent.critiqued _] => true
  | TraceEvent.critiqued f :: TraceEvent.refined _ :: rest =>
      !(f == COMPLETION_PHRASE) && loopAlternation rest
  | _ => false

/-- Checks the full-run trace shape: either empty (the producer failed)
or exactly one produced event at the head followed by a well-formed
loop trace containing no further produced event. -/
def wellFormedTrace : List TraceEvent → Bool
  | [] => true
  | TraceEvent.produced _ :: rest => noProduced rest && loopAlternation rest
  | _ => false

/-- Checks that every artifact recorded in a trace is non-empty. -/
def artifactsNonEmpty : List TraceEvent → Bool
  | [] => true
  | TraceEvent.produced a :: t => !(a == "") && artifactsNonEmpty t
  | TraceEvent.refined a :: t => !(a == "") && artifactsNonEmpty t
  | TraceEvent.critiqued _ :: t => artifactsNonEmpty t

/-- Checks that a successful result carries a non-empty artifact
(vacuously true for errors). -/
def resultArtifactNonEmpty : Except RunError RunResult → Bool
  | Except.ok r => !(r.artifact == "")
  | Except.error _ => true

/-- Concrete capabilities used to exercise the sentinel path: the
first critique asks for a fix, the second returns the sentinel. -/
def sentinelWitnessCaps : Capabilities :=
  { generate := fun _ => Except.ok "v0"
  , critique := fun i _ _ =>
      if i = 1 then Except.ok "fix X" else Except.ok COMPLETION_PHRASE
  , refine := fun _ _ _ => RefineOutcome.ok "v1" }

/-- Concrete capabilities used to exercise the bound path of the
spec's scenario: critique always asks for a fix, refine produces a new
version each call. -/
def boundWitnessCaps : Capabilities :=
  { generate := fun _ => Except.ok "v0"
  , critique := fun _ _ _ => Except.ok "fix X"
  , refine := fun i _ _ => RefineOutcome.ok (if i = 1 then "v1" else "v2") }

/-- Concrete capabilities whose critique returns the lowercase
near-miss of the sentinel. -/
def nearMissCaps : Capabilities :=
  { generate := fun _ => Except.ok "v0"
  , critique := fun _ _ _ => Except.ok "no major issues found."
  , refine := fun _ _ _ => RefineOutcome.ok "v1" }

/-- Concrete capabilities whose refine step attempts to signal
termination. -/
def exitAttemptCaps : Capabilities :=
  { generate := fun _ => Except.ok "v0"
  , critique := fun _ _ _ => Except.ok "fix X"
  , refine := fun _ _ _ => RefineOutcome.signalExit }

/-- Concrete capabilities where the generation and critique
capabilities fail outright. -/
def failingCaps : Capabilities :=
  { generate := fun _ => Except.error "llm down"
  , critique := fun _ _ _ => Except.error "llm down"
  , refine := fun _ _ _ => RefineOutcome.err "llm down" }

/-- Concrete capabilities where only the refine capability fails. -/
def failingRefineCaps : Capabilities :=
  { generate := fun _ => Except.ok "v0"
  , critique := fun _ _ _ => Except.ok "fix X"
  , refine := fun _ _ _ => RefineOutcome.err "llm down" }

/-- Concrete capabilities whose producer returns an empty artifact. -/
def emptyGenCaps : Capabilities :=
  { generate := fun _ => Except.ok ""
  , critique := fun _ _ _ => Except.ok "fix X"
  , refine := fun _ _ _ => RefineOutcome.ok "v1" }

end SoftwareArchitect

namespace JobHunter

/-- Embedded from src/GPT-JobHunter/backend/app/models/schemas.py: the
`User` response model (UserBase + TimestampMixin + id); timestamps are
optional and default to none. -/
structure User where
  id : Int
  email : String
  full_name : String
  is_active : Bool
  created_at : Option String := none
  updated_at : Option String := none
deriving Repr, DecidableEq

/-- Embedded from src/GPT-JobHunter/backend/app/main.py: the bearer
credentials object handed to the dependency (scheme and token). -/
structure HTTPAuthorizationCredentials where
  scheme : String
  credentials : String
deriving Repr, DecidableEq

/-- Embedded from src/GPT-JobHunter/backend/app/main.py lines 134-142:
the mock authentication dependency returns a fixed user and never
inspects the credentials. -/
def get_current_user (credentials : HTTPAuthorizationCredentials) : User :=
  { id := 1
    email := "user@example.com"
    full_name := "John Doe"
    is_active := true }

end JobHunter

namespace SoftwareArchitect

/-- Unfolding lemma: a failing critique aborts the iteration. -/
theorem loopRun_crit_err (caps : Capabilities) (topic a : String) (n done : Nat)
    (c : String) (hc : caps.critique (done + 1) a topic = Except.error c) :
    loopRun caps topic a (n + 1) done =
      ([], Except.error (RunError.stepFailure Step.critique c)) := by
  rw [loopRun, hc]

/-- Unfolding lemma: a critique returning exactly the sentinel stops
the loop with the artifact unchanged. -/
theorem loopRun_sentinel_step (caps : Capabilities) (topic a : String) (n done : Nat)
    (hc : caps.critique (done + 1) a topic = Except.ok COMPLETION_PHRASE) :
    loopRun caps topic a (n + 1) done =
      ([TraceEvent.critiqued COMPLETION_PHRASE],
       Except.ok { artifact := a, iterations := done + 1,
                   reason := TerminationReason.sentinel }) := by
  rw [loopRun, hc]
  simp

/-- Unfolding lemma: a failing refine aborts the iteration. -/
theorem loopRun_refine_err (caps : Capabilities) (topic a f : String) (n done : Nat)
    (c : String) (hc : caps.critique (done + 1) a topic = Except.ok f)
    (hf : f ≠ COMPLETION_PHRASE)
    (hr : caps.refine (done + 1) a f = RefineOutcome.err c) :
    loopRun caps topic a (n + 1) done =
      ([TraceEvent.critiqued f],
       Except.error (RunError.stepFailure Step.refine c)) := by
  rw [loopRun, hc]
  simp [hf, hr]

/-- Unfolding lemma: a refine attempting to signal termination aborts
with the contract violation error. -/
theorem loopRun_violation (caps : Capabilities) (topic a f : String) (n done : Nat)
    (hc : caps.critique (done + 1) a topic = Except.ok f)
    (hf : f ≠ COMPLETION_PHRASE)
    (hr : caps.refine (done + 1) a f = RefineOutcome.signalExit) :
    loopRun caps topic a (n + 1) done =
      ([TraceEvent.critiqued f], Except.error RunError.contractViolation) := by
  rw [loopRun, hc]
  simp [hf, hr]

/-- Unfolding lemma: a refine returning an empty artifact aborts as a
malformed refine response. -/
theorem loopRun_refine_empty (caps : Capabilities) (topic a f : String) (n done : Nat)
    (hc : caps.critique (done + 1) a topic = Except.ok f)
    (hf : f ≠ COMPLETION_PHRASE)
    (hr : caps.refine (done + 1) a f = RefineOutcome.ok "") :
    loopRun caps topic a (n + 1) done =
      ([TraceEvent.critiqued f],
       Except.error (RunError.stepFailure Step.refine "empty artifact")) := by
  rw [loopRun, hc]
  simp [hf, hr]

/-- Unfolding lemma: a non-sentinel critique followed by a successful
non-empty refine replaces the artifact and continues the loop. -/
theorem loopRun_step (caps : Capabilities) (topic a f a2 : String) (n done : Nat)
    (hc : caps.critique (done + 1) a topic = Except.ok f)
    (hf : f ≠ COMPLETION_PHRASE)
    (hr : caps.refine (done + 1) a f = RefineOutcome.ok a2) (ha : a2 ≠ "") :
    loopRun caps topic a (n + 1) done =
      (TraceEvent.critiqued f :: TraceEvent.refined a2 ::
         (loopRun caps topic a2 n (done + 1)).1,
       (loopRun caps topic a2 n (done + 1)).2) := by
  rw [loopRun, hc]
  simp [hf, hr, ha]

/-- The loop performs at most `n` critiques and at most `n` refines in
`n` remaining iterations. -/
theorem loopRun_counts (caps : Capabilities) (topic : String) :
    ∀ (n : Nat) (a : String) (done : Nat),
      countCritiques (loopRun caps topic a n done).1 ≤ n ∧
      countRefines (loopRun caps topic a n done).1 ≤ n := by
  intro n
  induction n with
  | zero =>
      intro a done
      simp [loopRun, countCritiques, countRefines]
  | succ m ih =>
      intro a done
      cases hc : caps.critique (done + 1) a topic with
      | error c =>
          rw [loopRun_crit_err caps topic a m done c hc]
          simp [countCritiques, countRefines]
      | ok f =>
          by_cases hf : f = COMPLETION_PHRASE
          · subst hf
            rw [loopRun_sentinel_step caps topic a m done hc]
            simp [countCritiques, countRefines]
          · cases hr : caps.refine (done + 1) a f with
            | err c =>
                rw [loopRun_refine_err caps topic a f m done c hc hf hr]
                simp [countCritiques, countRefines]
            | signalExit =>
                rw [loopRun_violation caps topic a f m done hc hf hr]
                simp [countCritiques, countRefines]
            | ok a2 =>
                by_cases ha : a2 = ""
                · subst ha
                  rw [loopRun_refine_empty caps topic a f m done hc hf hr]
                  simp [countCritiques, countRefines]
                · rw [loopRun_step caps topic a f a2 m done hc hf hr ha]
                  have h := ih a2 (done + 1)
                  simp only [countCritiques, countRefines]
                  omega

/-- If the first `k` iterations critique without the sentinel and
refine successfully, and iteration `k + 1` critiques to exactly the
sentinel, the loop stops with reason sentinel, the artifact reached
after the `k` pairs, `k + 1` critiques and `k` refines. -/
theorem loopRun_sentinel_at (caps : Capabilities) (topic : String) :
    ∀ (k : Nat) (a : String) (n done : Nat),
      k < n →
      (∀ j a2, j < k →
        ∃ f, caps.critique (done + 1 + j) a2 topic = Except.ok f ∧ f ≠ COMPLETION_PHRASE) →
      (∀ j a2 f, j < k →
        ∃ a3, caps.refine (done + 1 + j) a2 f = RefineOutcome.ok a3 ∧ a3 ≠ "") →
      (∀ a2, caps.critique (done + 1 + k) a2 topic = Except.ok COMPLETION_PHRASE) →
      ∃ tr, loopRun caps topic a n done =
          (tr, Except.ok { artifact := refineChain caps topic a (done + 1) k,
                           iterations := done + 1 + k,
                           reason := TerminationReason.sentinel }) ∧
        countCritiques tr = k + 1 ∧ countRefines tr = k := by
  intro k
  induction k with
  | zero =>
      intro a n done hn _ _ hsent
      obtain ⟨m, rfl⟩ : ∃ m, n = m + 1 := ⟨n - 1, by omega⟩
      refine ⟨[TraceEvent.critiqued COMPLETION_PHRASE], ?_,
        by simp [countCritiques, countRefines]⟩
      rw [loopRun_sentinel_step caps topic a m done (hsent a)]
      simp [refineChain]
  | succ k ih =>
      intro a n done hn hcrit href hsent
      obtain ⟨m, rfl⟩ : ∃ m, n = m + 1 := ⟨n - 1, by omega⟩
      obtain ⟨f, hc, hf⟩ := hcrit 0 a (by omega)
      obtain ⟨a2, hr, ha⟩ := href 0 a f (by omega)
      rw [Nat.add_zero] at hc hr
      have step := loopRun_step caps topic a f a2 m done hc hf hr ha
      obtain ⟨tr, htr, hcc, hcr⟩ := ih a2 m (done + 1) (by omega)
        (by
          intro j a3 hj
          have e : done + 1 + 1 + j = done + 1 + (j + 1) := by omega
          rw [e]
          exact hcrit (j + 1) a3 (by omega))
        (by
          intro j a3 f3 hj
          have e : done + 1 + 1 + j = done + 1 + (j + 1) := by omega
          rw [e]
          exact href (j + 1) a3 f3 (by omega))
        (by
          intro a3
          have e : done + 1 + 1 + k = done + 1 + (k + 1) := by omega
          rw [e]
          exact hsent a3)
      have hchain : refineChain caps topic a (done + 1) (k + 1) =
          refineChain caps topic a2 (done + 1 + 1) k := by
        rw [refineChain, hc]
        dsimp only
        rw [hr]
      refine ⟨TraceEvent.critiqued f :: TraceEvent.refined a2 :: tr, ?_,
        by simp [countCritiques, countRefines, hcc],
        by simp [countCritiques, countRefines, hcr]⟩
      rw [step, htr, hchain]
      have e : done + 1 + 1 + k = done + 1 + (k + 1) := by omega
      rw [e]

/-- If all `n` remaining iterations critique without the sentinel and
refine successfully, the loop exhausts the bound: it stops with reason
bound, the artifact is the output of the `n`-th refine, and `n`
critiques and `n` refines occurred. -/
theorem loopRun_bound_at (caps : Capabilities) (topic : String) :
    ∀ (n : Nat) (a : String) (done : Nat),
      (∀ j a2, j < n →
        ∃ f, caps.critique (done + 1 + j) a2 topic = Except.ok f ∧ f ≠ COMPLETION_PHRASE) →
      (∀ j a2 f, j < n →
        ∃ a3, caps.refine (done + 1 + j) a2 f = RefineOutcome.ok a3 ∧ a3 ≠ "") →
      ∃ tr, loopRun caps topic a n done =
          (tr, Except.ok { artifact := refineChain caps topic a (done + 1) n,
                           iterations := done + n,
                           reason := TerminationReason.bound }) ∧
        countCritiques tr = n ∧ countRefines tr = n := by
  intro n
  induction n with
  | zero =>
      intro a done _ _
      exact ⟨[], by simp [loopRun, refineChain], by simp [countCritiques, countRefines]⟩
  | succ n ih =>
      intro a done hcrit href
      obtain ⟨f, hc, hf⟩ := hcrit 0 a (by omega)
      obtain ⟨a2, hr, ha⟩ := href 0 a f (by omega)
      rw [Nat.add_zero] at hc hr
      have step := loopRun_step caps topic a f a2 n done hc hf hr ha
      obtain ⟨tr, htr, hcc, hcr⟩ := ih a2 (done + 1)
        (by
          intro j a3 hj
          have e : done + 1 + 1 + j = done + 1 + (j + 1) := by omega
          rw [e]
          exact hcrit (j + 1) a3 (by omega))
        (by
          intro j a3 f3 hj
          have e : done + 1 + 1 + j = done + 1 + (j + 1) := by omega
          rw [e]
          exact href (j + 1) a3 f3 (by omega))
      have hchain : refineChain caps topic a (done + 1) (n + 1) =
          refineChain caps topic a2 (done + 1 + 1) n := by
        rw [refineChain, hc]
        dsimp only
        rw [hr]
      refine ⟨TraceEvent.critiqued f :: TraceEvent.refined a2 :: tr, ?_,
        by simp [countCritiques, countRefines, hcc],
        by simp [countCritiques, countRefines, hcr]⟩
      rw [step, htr, hchain]
      have e : done + 1 + n = done + (n + 1) := by omega
      rw [e]

/-- The loop trace never records a produced event and always
alternates critique/refine with every refine immediately after a
non-sentinel critique. -/
theorem loopRun_trace_shape (caps : Capabilities) (topic : String) :
    ∀ (n : Nat) (a : String) (done : Nat),
      noProduced (loopRun caps topic a n done).1 = true ∧
      loopAlternation (loopRun caps topic a n done).1 = true := by
  intro n
  induction n with
  | zero =>
      intro a done
      simp [loopRun, noProduced, loopAlternation]
  | succ m ih =>
      intro a done
      cases hc : caps.critique (done + 1) a topic with
      | error c =>
          rw [loopRun_crit_err caps topic a m done c hc]
          simp [noProduced, loopAlternation]
      | ok f =>
          by_cases hf : f = COMPLETION_PHRASE
          · subst hf
            rw [loopRun_sentinel_step caps topic a m done hc]
            simp [noProduced, loopAlternation]
          · cases hr : caps.refine (done + 1) a f with
            | err c =>
                rw [loopRun_refine_err caps topic a f m done c hc hf hr]
                simp [noProduced, loopAlternation]
            | signalExit =>
                rw [loopRun_violation caps topic a f m done hc hf hr]
                simp [noProduced, loopAlternation]
            | ok a2 =>
                by_cases ha : a2 = ""
                · subst ha
                  rw [loopRun_refine_empty caps topic a f m done hc hf hr]
                  simp [noProduced, loopAlternation]
                · rw [loopRun_step caps topic a f a2 m done hc hf hr ha]
                  have h := ih a2 (done + 1)
                  simp [noProduced, loopAlternation, hf, h.1, h.2]

/-- If the loop starts from a non-empty artifact, every artifact it
records is non-empty and a successful result carries a non-empty
artifact. -/
theorem loopRun_artifacts (caps : Capabilities) (topic : String) :
    ∀ (n : Nat) (a : String) (done : Nat), a ≠ "" →
      artifactsNonEmpty (loopRun caps topic a n done).1 = true ∧
      resultArtifactNonEmpty (loopRun caps topic a n done).2 = true := by
  intro n
  induction n with
  | zero =>
      intro a done ha
      simp [loopRun, artifactsNonEmpty, resultArtifactNonEmpty, ha]
  | succ m ih =>
      intro a done ha
      cases hc : caps.critique (done + 1) a topic with
      | error c =>
          rw [loopRun_crit_err caps topic a m done c hc]
          simp [artifactsNonEmpty, resultArtifactNonEmpty]
      | ok f =>
          by_cases hf : f = COMPLETION_PHRASE
          · subst hf
            rw [loopRun_sentinel_step caps topic a m done hc]
            simp [artifactsNonEmpty, resultArtifactNonEmpty, ha]
          · cases hr : caps.refine (done + 1) a f with
            | err c =>
                rw [loopRun_refine_err caps topic a f m done c hc hf hr]
                simp [artifactsNonEmpty, resultArtifactNonEmpty]
            | signalExit =>
                rw [loopRun_violation caps topic a f m done hc hf hr]
                simp [artifactsNonEmpty, resultArtifactNonEmpty]
            | ok a2 =>
                by_cases ha2 : a2 = ""
                · subst ha2
                  rw [loopRun_refine_empty caps topic a f m done hc hf hr]
                  simp [artifactsNonEmpty, resultArtifactNonEmpty]
                · rw [loopRun_step caps topic a f a2 m done hc hf hr ha2]
                  have h := ih a2 (done + 1) ha2
                  refine ⟨?_, ?_⟩
                  · simp [artifactsNonEmpty, ha2, h.1]
                  · exact h.2

end SoftwareArchitect

namespace SoftwareArchitect

/-- Unfolding lemma: a failing producer aborts the run with the
generation error. -/
theorem run_gen_err (caps : Capabilities) (topic : String) (m : Nat) (c : String)
    (hg : caps.generate topic = Except.error c) :
    run caps topic m = ([], Except.error (GenerationError c)) := by
  rw [run, hg]

/-- Unfolding lemma: a producer returning an empty artifact aborts the
run with the generation error. -/
theorem run_gen_empty (caps : Capabilities) (topic : String) (m : Nat)
    (hg : caps.generate topic = Except.ok "") :
    run caps topic m = ([], Except.error (GenerationError "empty artifact")) := by
  rw [run, hg]
  rfl

/-- Unfolding lemma: a successful non-empty producer output starts the
loop on the initial artifact. -/
theorem run_gen_ok (caps : Capabilities) (topic : String) (m : Nat) (a0 : String)
    (hg : caps.generate topic = Except.ok a0) (ha : a0 ≠ "") :
    run caps topic m =
      (TraceEvent.produced a0 :: (loopRun caps topic a0 m 0).1,
       (loopRun caps topic a0 m 0).2) := by
  rw [run, hg]
  simp [ha]

end SoftwareArchitect

namespace SoftwareArchitect

/-- C1: if the critique capability returns the exact completion
sentinel on iteration `k` (earlier iterations critiquing without the
sentinel and refining successfully), `run` terminates after iteration
`k` with termination-reason sentinel, the returned artifact is the
artifact as of the start of iteration `k` - the output of the first
`k - 1` refine calls - and no refine call occurs on or after the
sentinel iteration: exactly `k - 1` refine events are recorded. -/
theorem run_sentinel_termination (caps : Capabilities) (topic a0 : String)
    (maxIterations k : Nat)
    (hgen : caps.generate topic = Except.ok a0) (ha0 : a0 ≠ "")
    (hk : 1 ≤ k) (hkm : k ≤ maxIterations)
    (hcrit : ∀ i a2, 1 ≤ i → i < k →
      ∃ f, caps.critique i a2 topic = Except.ok f ∧ f ≠ COMPLETION_PHRASE)
    (href : ∀ i a2 f, 1 ≤ i → i < k →
      ∃ a3, caps.refine i a2 f = RefineOutcome.ok a3 ∧ a3 ≠ "")
    (hsent : ∀ a2, caps.critique k a2 topic = Except.ok COMPLETION_PHRASE) :
    ∃ tr, run caps topic maxIterations =
        (TraceEvent.produced a0 :: tr,
         Except.ok { artifact := refineChain caps topic a0 1 (k - 1),
                     iterations := k,
                     reason := TerminationReason.sentinel }) ∧
      countCritiques tr = k ∧ countRefines tr = k - 1 := by
  obtain ⟨k2, rfl⟩ : ∃ k2, k = k2 + 1 := ⟨k - 1, by omega⟩
  obtain ⟨tr, htr, hcc, hcr⟩ := loopRun_sentinel_at caps topic k2 a0 maxIterations 0
    (by omega)
    (by
      intro j a2 hj
      have e : 0 + 1 + j = j + 1 := by omega
      rw [e]
      exact hcrit (j + 1) a2 (by omega) (by omega))
    (by
      intro j a2 f hj
      have e : 0 + 1 + j = j + 1 := by omega
      rw [e]
      exact href (j + 1) a2 f (by omega) (by omega))
    (by
      intro a2
      have e : 0 + 1 + k2 = k2 + 1 := by omega
      rw [e]
      exact hsent a2)
  have e2 : 0 + 1 + k2 = k2 + 1 := by omega
  rw [e2] at htr
  refine ⟨tr, ?_, hcc, by simpa using hcr⟩
  rw [run_gen_ok caps topic maxIterations a0 hgen ha0, htr]
  simp

/-- C2: for every topic and every iteration bound, `run` performs at
most `maxIterations` critique calls and at most `maxIterations` refine
calls, and the loop is terminal as soon as the remaining-iteration
budget is exhausted, regardless of any termination signal: with zero
remaining iterations it stops at once with reason bound. -/
theorem run_at_most_max_iterations (caps : Capabilities) (topic : String)
    (maxIterations : Nat) :
    countCritiques (run caps topic maxIterations).1 ≤ maxIterations ∧
    countRefines (run caps topic maxIterations).1 ≤ maxIterations ∧
    (∀ a done, loopRun caps topic a 0 done =
      ([], Except.ok { artifact := a, iterations := done,
                       reason := TerminationReason.bound })) := by
  refine ⟨?_, ?_, fun a done => rfl⟩
  · cases hg : caps.generate topic with
    | error c =>
        rw [run_gen_err caps topic maxIterations c hg]
        simp [countCritiques]
    | ok a0 =>
        by_cases ha : a0 = ""
        · subst ha
          rw [run_gen_empty caps topic maxIterations hg]
          simp [countCritiques]
        · rw [run_gen_ok caps topic maxIterations a0 hg ha]
          have h := loopRun_counts caps topic maxIterations a0 0
          simpa [countCritiques] using h.1
  · cases hg : caps.generate topic with
    | error c =>
        rw [run_gen_err caps topic maxIterations c hg]
        simp [countRefines]
    | ok a0 =>
        by_cases ha : a0 = ""
        · subst ha
          rw [run_gen_empty caps topic maxIterations hg]
          simp [countRefines]
        · rw [run_gen_ok caps topic maxIterations a0 hg ha]
          have h := loopRun_counts caps topic maxIterations a0 0
          simpa [countRefines] using h.2

/-- C3: if the critique capability never returns the sentinel within
the `maxIterations` iterations (each iteration critiquing to actionable
feedback and refining successfully), `run` terminates with
termination-reason bound and returns exactly the output of the
`maxIterations`-th refine call, `maxIterations` critiques and
`maxIterations` refines having occurred - each refine replacing the
previous artifact. -/
theorem run_bound_termination (caps : Capabilities) (topic a0 : String)
    (maxIterations : Nat)
    (hgen : caps.generate topic = Except.ok a0) (ha0 : a0 ≠ "")
    (hm : 1 ≤ maxIterations)
    (hcrit : ∀ i a2, 1 ≤ i → i ≤ maxIterations →
      ∃ f, caps.critique i a2 topic = Except.ok f ∧ f ≠ COMPLETION_PHRASE)
    (href : ∀ i a2 f, 1 ≤ i → i ≤ maxIterations →
      ∃ a3, caps.refine i a2 f = RefineOutcome.ok a3 ∧ a3 ≠ "") :
    ∃ tr, run caps topic maxIterations =
        (TraceEvent.produced a0 :: tr,
         Except.ok { artifact := refineChain caps topic a0 1 maxIterations,
                     iterations := maxIterations,
                     reason := TerminationReason.bound }) ∧
      countCritiques tr = maxIterations ∧ countRefines tr = maxIterations := by
  obtain ⟨tr, htr, hcc, hcr⟩ := loopRun_bound_at caps topic maxIterations a0 0
    (by
      intro j a2 hj
      have e : 0 + 1 + j = j + 1 := by omega
      rw [e]
      exact hcrit (j + 1) a2 (by omega) (by omega))
    (by
      intro j a2 f hj
      have e : 0 + 1 + j = j + 1 := by omega
      rw [e]
      exact href (j + 1) a2 f (by omega) (by omega))
  have e2 : 0 + maxIterations = maxIterations := by omega
  rw [e2] at htr
  refine ⟨tr, ?_, hcc, hcr⟩
  rw [run_gen_ok caps topic maxIterations a0 hgen ha0, htr]

/-- C4: sentinel matching is exact string equality: a critique feedback
that differs from the configured sentinel in any way - including only
by case or by leading/trailing whitespace - does not terminate the
loop; instead the refine capability is invoked and the loop continues
with the refined artifact. -/
theorem nonsentinel_feedback_does_not_terminate (caps : Capabilities)
    (topic a f a2 : String) (n done : Nat)
    (hc : caps.critique (done + 1) a topic = Except.ok f)
    (hf : f ≠ COMPLETION_PHRASE)
    (hr : caps.refine (done + 1) a f = RefineOutcome.ok a2) (ha : a2 ≠ "") :
    loopRun caps topic a (n + 1) done =
      (TraceEvent.critiqued f :: TraceEvent.refined a2 ::
         (loopRun caps topic a2 n (done + 1)).1,
       (loopRun caps topic a2 n (done + 1)).2) :=
  loopRun_step caps topic a f a2 n done hc hf hr ha

/-- C4 witness: the lowercase near-miss of the sentinel does not
terminate the loop: a refine call follows. -/
theorem nonsentinel_feedback_does_not_terminate_witness :
    loopRun nearMissCaps "t" "v0" 1 0 =
      (TraceEvent.critiqued "no major issues found." :: TraceEvent.refined "v1" ::
         (loopRun nearMissCaps "t" "v1" 0 1).1,
       (loopRun nearMissCaps "t" "v1" 0 1).2) :=
  nonsentinel_feedback_does_not_terminate nearMissCaps "t" "v0"
    "no major issues found." "v1" 0 0 rfl (by decide) rfl (by decide)

/-- C5: a refine step that attempts to set the termination signal
without the critique having returned the exact sentinel is rejected:
the iteration aborts with `ContractViolationError` and no successful
result - in particular no silently honored loop termination - is
produced. -/
theorem refine_exit_attempt_rejected (caps : Capabilities) (topic a f : String)
    (n done : Nat)
    (hc : caps.critique (done + 1) a topic = Except.ok f)
    (hf : f ≠ COMPLETION_PHRASE)
    (hr : caps.refine (done + 1) a f = RefineOutcome.signalExit) :
    loopRun caps topic a (n + 1) done =
      ([TraceEvent.critiqued f], Except.error RunError.contractViolation) ∧
    ∀ r, (loopRun caps topic a (n + 1) done).2 ≠ Except.ok r := by
  have h := loopRun_violation caps topic a f n done hc hf hr
  refine ⟨h, ?_⟩
  intro r
  rw [h]
  simp

/-- C5 witness: a refine attempting termination on non-sentinel
feedback aborts the run with the contract violation error. -/
theorem refine_exit_attempt_rejected_witness :
    loopRun exitAttemptCaps "t" "v0" 5 0 =
      ([TraceEvent.critiqued "fix X"], Except.error RunError.contractViolation) ∧
    ∀ r, (loopRun exitAttemptCaps "t" "v0" 5 0).2 ≠ Except.ok r :=
  refine_exit_attempt_rejected exitAttemptCaps "t" "v0" "fix X" 4 0
    rfl (by decide) rfl

end SoftwareArchitect

namespace SoftwareArchitect

/-- C1 witness: with a first critique asking for a fix and the second
critique returning the sentinel, the run stops after iteration 2 with
reason sentinel, one refine having occurred before the sentinel
iteration and none after. -/
theorem run_sentinel_termination_witness :
    ∃ tr, run sentinelWitnessCaps "topic" max_iterations =
        (TraceEvent.produced "v0" :: tr,
         Except.ok { artifact := refineChain sentinelWitnessCaps "topic" "v0" 1 1,
                     iterations := 2,
                     reason := TerminationReason.sentinel }) ∧
      countCritiques tr = 2 ∧ countRefines tr = 1 :=
  run_sentinel_termination sentinelWitnessCaps "topic" "v0" max_iterations 2
    rfl (by decide) (by decide) (by decide)
    (by
      intro i a2 h1 h2
      have hi : i = 1 := by omega
      subst hi
      exact ⟨"fix X", rfl, by decide⟩)
    (by
      intro i a2 f h1 h2
      exact ⟨"v1", rfl, by decide⟩)
    (by
      intro a2
      rfl)

/-- C3 witness: the spec's bound-path scenario: with `maxIterations =
2`, critique always demanding a fix and refine producing a new version
each call, the run returns the second refine output with reason bound,
after 2 critiques and 2 refines; the returned artifact evaluates to
"v2". -/
theorem run_bound_termination_witness :
    (∃ tr, run boundWitnessCaps "t" 2 =
        (TraceEvent.produced "v0" :: tr,
         Except.ok { artifact := refineChain boundWitnessCaps "t" "v0" 1 2,
                     iterations := 2,
                     reason := TerminationReason.bound }) ∧
      countCritiques tr = 2 ∧ countRefines tr = 2) ∧
    refineChain boundWitnessCaps "t" "v0" 1 2 = "v2" :=
  ⟨run_bound_termination boundWitnessCaps "t" "v0" 2 rfl (by decide) (by decide)
    (by
      intro i a2 h1 h2
      exact ⟨"fix X", rfl, by decide⟩)
    (by
      intro i a2 f h1 h2
      refine ⟨if i = 1 then "v1" else "v2", rfl, ?_⟩
      by_cases hi : i = 1
      · simp [hi]
      · simp [hi]),
   by decide⟩

/-- C6: any capability invocation failure aborts the run immediately
with a step-identifying failure and no artifact: a failing producer
yields the produce-step failure with an empty trace; a failing critique
aborts the loop with the critique-step failure recording no event, so
no refine call follows a failed critique; a failing refine aborts with
the refine-step failure, the partial iteration discarded. -/
theorem capability_failure_aborts (caps : Capabilities) (topic a f : String)
    (m n done : Nat) :
    (∀ c, caps.generate topic = Except.error c →
      run caps topic m = ([], Except.error (RunError.stepFailure Step.produce c))) ∧
    (∀ c, caps.critique (done + 1) a topic = Except.error c →
      loopRun caps topic a (n + 1) done =
        ([], Except.error (RunError.stepFailure Step.critique c))) ∧
    (∀ c, caps.critique (done + 1) a topic = Except.ok f → f ≠ COMPLETION_PHRASE →
      caps.refine (done + 1) a f = RefineOutcome.err c →
      loopRun caps topic a (n + 1) done =
        ([TraceEvent.critiqued f], Except.error (RunError.stepFailure Step.refine c))) := by
  refine ⟨?_, ?_, ?_⟩
  · intro c hg
    exact run_gen_err caps topic m c hg
  · intro c hc
    exact loopRun_crit_err caps topic a n done c hc
  · intro c hc hf hr
    exact loopRun_refine_err caps topic a f n done c hc hf hr

/-- C6 witness: a failing producer aborts the whole run; a critique
failing on the first loop iteration aborts with the critique-step
failure and an empty loop trace (no refine call); a failing refine
aborts with the refine-step failure. -/
theorem capability_failure_aborts_witness :
    run failingCaps "t" 5 =
      ([], Except.error (RunError.stepFailure Step.produce "llm down")) ∧
    loopRun failingCaps "t" "v0" 5 0 =
      ([], Except.error (RunError.stepFailure Step.critique "llm down")) ∧
    loopRun failingRefineCaps "t" "v0" 5 0 =
      ([TraceEvent.critiqued "fix X"],
       Except.error (RunError.stepFailure Step.refine "llm down")) :=
  ⟨(capability_failure_aborts failingCaps "t" "v0" "f" 5 4 0).1 "llm down" rfl,
   (capability_failure_aborts failingCaps "t" "v0" "f" 5 4 0).2.1 "llm down" rfl,
   (capability_failure_aborts failingRefineCaps "t" "v0" "fix X" 5 4 0).2.2
     "llm down" rfl (by decide) rfl⟩

/-- C7: every run trace is well-formed: it is either empty (the
producer failed) or starts with exactly one produced event - the
produce step runs once, before any critique - followed by an
alternating critique/refine trace with no further produced event, in
which every refine event immediately follows a critique event whose
feedback is not the sentinel. -/
theorem run_trace_well_formed (caps : Capabilities) (topic : String)
    (maxIterations : Nat) :
    wellFormedTrace (run caps topic maxIterations).1 = true := by
  cases hg : caps.generate topic with
  | error c =>
      rw [run_gen_err caps topic maxIterations c hg]
      simp [wellFormedTrace]
  | ok a0 =>
      by_cases ha : a0 = ""
      · subst ha
        rw [run_gen_empty caps topic maxIterations hg]
        simp [wellFormedTrace]
      · rw [run_gen_ok caps topic maxIterations a0 hg ha]
        have h := loopRun_trace_shape caps topic maxIterations a0 0
        simp [wellFormedTrace, h.1, h.2]

/-- C8: once the producer step has run, the artifact is non-empty and
stays non-empty: every produced or refined artifact recorded in any run
trace is non-empty, every successful result carries a non-empty
artifact, and a producer returning an empty artifact makes the run fail
with `GenerationError` instead of committing it. -/
theorem run_artifact_non_empty (caps : Capabilities) (topic : String)
    (maxIterations : Nat) :
    artifactsNonEmpty (run caps topic maxIterations).1 = true ∧
    resultArtifactNonEmpty (run caps topic maxIterations).2 = true ∧
    (caps.generate topic = Except.ok "" →
      run caps topic maxIterations =
        ([], Except.error (GenerationError "empty artifact"))) := by
  refine ⟨?_, ?_, fun hg => run_gen_empty caps topic maxIterations hg⟩
  · cases hg : caps.generate topic with
    | error c =>
        rw [run_gen_err caps topic maxIterations c hg]
        simp [artifactsNonEmpty]
    | ok a0 =>
        by_cases ha : a0 = ""
        · subst ha
          rw [run_gen_empty caps topic maxIterations hg]
          simp [artifactsNonEmpty]
        · rw [run_gen_ok caps topic maxIterations a0 hg ha]
          have h := loopRun_artifacts caps topic maxIterations a0 0 ha
          simp [artifactsNonEmpty, ha, h.1]
  · cases hg : caps.generate topic with
    | error c =>
        rw [run_gen_err caps topic maxIterations c hg]
        simp [resultArtifactNonEmpty]
    | ok a0 =>
        by_cases ha : a0 = ""
        · subst ha
          rw [run_gen_empty caps topic maxIterations hg]
          simp [resultArtifactNonEmpty]
        · rw [run_gen_ok caps topic maxIterations a0 hg ha]
          exact (loopRun_artifacts caps topic maxIterations a0 0 ha).2

/-- C8 witness: a producer returning the empty artifact aborts the run
with `GenerationError`, committing nothing. -/
theorem run_artifact_non_empty_witness :
    run emptyGenCaps "t" 5 =
      ([], Except.error (GenerationError "empty artifact")) :=
  (run_artifact_non_empty emptyGenCaps "t" 5).2.2 rfl

/-- C9: the exit_loop tool is unconditional: for every tool context it
sets the escalate flag to true and returns an empty dict, performing no
check of any feedback or of which agent invoked it - the rest of the
context, including the calling agent's name, is untouched. -/
theorem exit_loop_unconditional (ctx : ToolContext) :
    (exit_loop ctx).1.actions.escalate = true ∧
    (exit_loop ctx).2 = [] ∧
    (exit_loop ctx).1.agent_name = ctx.agent_name :=
  ⟨rfl, rfl, rfl⟩

end SoftwareArchitect

namespace JobHunter

/-- C10: the backend's authentication dependency is
credential-independent: for every pair of presented bearer credentials
`get_current_user` returns the same fixed user (id 1, email
user@example.com, full name John Doe, active), so no authenticated
endpoint output can depend on the token supplied. -/
theorem get_current_user_credential_independent
    (c1 c2 : HTTPAuthorizationCredentials) :
    get_current_user c1 = get_current_user c2 ∧
    get_current_user c1 =
      { id := 1, email := "user@example.com", full_name := "John Doe",
        is_active := true } :=
  ⟨rfl, rfl⟩

end JobHunter
